import Mathlib

/-!
Shallow embedding, in Lean 4, of the core components of the A1Axiom
repository (Go), together with theorems settling the frozen claims about
its natural-language specification.

Arithmetic convention: the Go code computes over IEEE float64.  The
embedding uses exact rational arithmetic (`ℚ`), so every identity proved
here is the exact-arithmetic behaviour of the source algorithm.  The one
place the source leaves the rationals is `math.Sqrt`; since the square
root is only ever (a) compared with zero and (b) used as a divisor whose
quotient is then compared with the threshold, both uses are eliminated
exactly: `math.Sqrt v == 0` iff `v == 0` (for `v ≥ 0`), and for
`z = |d| / √v ≥ 0` we have `z > t` iff `t < 0 ∨ t² < d²/v`.  The z-score
returned by the standard branch is therefore represented by its square
(`ZScoreVal.val`), and the two literal returns `0.0` and
`math.MaxFloat64` of the zero-variance branch by `ZScoreVal.val 0` and
`ZScoreVal.maxFloat`.
-/

/-- Mirrors the `AnomalyDetector` struct of `anomaly/anomaly.go`
(`WindowSize int`, `Threshold float64`, `dataWindow []float64`,
`sum float64`, `sumOfSquares float64`; the mutex is concurrency plumbing
with no algorithmic content).  `WindowSize` is a Go `int`, hence `ℤ`. -/
structure AnomalyDetector where
  WindowSize : ℤ
  Threshold : ℚ
  dataWindow : List ℚ
  sum : ℚ
  sumOfSquares : ℚ
deriving DecidableEq, Repr

/-- The z-score component of a `ProcessData` result: either the literal
`math.MaxFloat64` returned by the zero-variance branch, or an ordinary
nonnegative z-score represented by its square (see the header comment). -/
inductive ZScoreVal where
  | maxFloat : ZScoreVal
  | val (sq : ℚ) : ZScoreVal
deriving DecidableEq, Repr

/-- Mirrors `NewDetector` of `anomaly/anomaly.go`: empty window, zero
running statistics. -/
def NewDetector (windowSize : ℤ) (threshold : ℚ) : AnomalyDetector :=
  { WindowSize := windowSize
    Threshold := threshold
    dataWindow := []
    sum := 0
    sumOfSquares := 0 }

/-- The eviction prologue of `ProcessData` (`anomaly/anomaly.go` lines
42–47): if `len(ad.dataWindow) >= ad.WindowSize`, remove the oldest value
and subtract it from the running statistics.  `none` models the Go
runtime panic raised by `ad.dataWindow[0]` on an empty window (possible
only when `WindowSize ≤ 0`).  Returns the window and statistics the rest
of `ProcessData` continues with. -/
def evictIfFull (ad : AnomalyDetector) : Option (List ℚ × ℚ × ℚ) :=
  if ad.WindowSize ≤ (ad.dataWindow.length : ℤ) then
    match ad.dataWindow with
    | [] => none
    | oldValue :: rest =>
        some (rest, ad.sum - oldValue, ad.sumOfSquares - oldValue * oldValue)
  else
    some (ad.dataWindow, ad.sum, ad.sumOfSquares)

/-- The evaluation epilogue of `ProcessData` (`anomaly/anomaly.go` lines
53–77), applied to the updated window `win1` and running statistics
`sum1`/`sq1`: the `currentSize < 2` early return, mean/variance with the
`variance < 0` clamp, the `stdDev == 0` branch and the z-score test.
The anomaly decision `math.Abs((newValue-mean)/stdDev) > threshold` is
encoded by the exact equivalent
`threshold < 0 ∨ threshold² < (newValue-mean)²/variance`. -/
def classify (threshold newValue : ℚ) (win1 : List ℚ) (sum1 sq1 : ℚ) :
    Bool × ZScoreVal :=
  let currentSize := win1.length
  if currentSize < 2 then
    (false, ZScoreVal.val 0)
  else
    let mean := sum1 / (currentSize : ℚ)
    let variance0 := sq1 / (currentSize : ℚ) - mean * mean
    let variance := if variance0 < 0 then 0 else variance0
    if variance = 0 then
      if newValue ≠ mean then
        (true, ZScoreVal.maxFloat)
      else
        (false, ZScoreVal.val 0)
    else
      let zsq := (newValue - mean) * (newValue - mean) / variance
      (decide (threshold < 0 ∨ threshold * threshold < zsq), ZScoreVal.val zsq)

/-- Mirrors `ProcessData` of `anomaly/anomaly.go` (lines 36–78):
evict-if-full, add the new value to the window and the running
statistics, then evaluate.  Returns the `(isAnomaly, zScore)` pair and
the updated detector; `none` models a panic in the eviction step. -/
def ProcessData (ad : AnomalyDetector) (newValue : ℚ) :
    Option ((Bool × ZScoreVal) × AnomalyDetector) :=
  (evictIfFull ad).map (fun s =>
    let sum1 := s.2.1 + newValue
    let sq1 := s.2.2 + newValue * newValue
    let win1 := s.1 ++ [newValue]
    (classify ad.Threshold newValue win1 sum1 sq1,
      { ad with dataWindow := win1, sum := sum1, sumOfSquares := sq1 }))

/-- Replays a sequence of data-point values through `ProcessData`,
collecting the per-call `(isAnomaly, zScore)` outputs and the final
detector state; `none` if any call panics. -/
def runDetector : AnomalyDetector → List ℚ →
    Option (List (Bool × ZScoreVal) × AnomalyDetector)
  | ad, [] => some ([], ad)
  | ad, x :: xs => do
      let (out, ad') ← ProcessData ad x
      let (outs, adF) ← runDetector ad' xs
      pure (out :: outs, adF)

/-- Sum of squares of a list, the quantity `sumOfSquares` tracks. -/
def sqSum (l : List ℚ) : ℚ := (l.map (fun x => x * x)).sum

/-- `evictIfFull` panics exactly when the window is empty yet already
"full", i.e. when `WindowSize ≤ 0`. -/
lemma evictIfFull_eq_none_iff (ad : AnomalyDetector) :
    evictIfFull ad = none ↔ ad.dataWindow = [] ∧ ad.WindowSize ≤ 0 := by
  unfold evictIfFull
  rcases hwin : ad.dataWindow with _ | ⟨a, rest⟩ <;> split <;> simp_all

/-- Unfolding of `ProcessData` when the eviction branch is not taken. -/
lemma ProcessData_not_full (ad : AnomalyDetector) (x : ℚ)
    (h : ¬ ad.WindowSize ≤ (ad.dataWindow.length : ℤ)) :
    ProcessData ad x =
      some (classify ad.Threshold x (ad.dataWindow ++ [x]) (ad.sum + x)
          (ad.sumOfSquares + x * x),
        { ad with
            dataWindow := ad.dataWindow ++ [x]
            sum := ad.sum + x
            sumOfSquares := ad.sumOfSquares + x * x }) := by
  unfold ProcessData evictIfFull
  rw [if_neg h]
  rfl

/-- Unfolding of `ProcessData` when the eviction branch runs on a
nonempty window. -/
lemma ProcessData_full (ad : AnomalyDetector) (x a : ℚ) (rest : List ℚ)
    (hwin : ad.dataWindow = a :: rest)
    (h : ad.WindowSize ≤ (ad.dataWindow.length : ℤ)) :
    ProcessData ad x =
      some (classify ad.Threshold x (rest ++ [x]) (ad.sum - a + x)
          (ad.sumOfSquares - a * a + x * x),
        { ad with
            dataWindow := rest ++ [x]
            sum := ad.sum - a + x
            sumOfSquares := ad.sumOfSquares - a * a + x * x }) := by
  unfold ProcessData evictIfFull
  rw [if_pos h, hwin]
  rfl

/-- For a positive window size `ProcessData` always succeeds. -/
lemma ProcessData_isSome (ad : AnomalyDetector) (x : ℚ)
    (h : 1 ≤ ad.WindowSize) : ∃ r, ProcessData ad x = some r := by
  by_cases hfull : ad.WindowSize ≤ (ad.dataWindow.length : ℤ)
  · rcases hwin : ad.dataWindow with _ | ⟨a, rest⟩
    · exfalso
      rw [hwin] at hfull
      simp at hfull
      omega
    · exact ⟨_, ProcessData_full ad x a rest hwin hfull⟩
  · exact ⟨_, ProcessData_not_full ad x hfull⟩

lemma runDetector_cons (ad : AnomalyDetector) (x : ℚ) (xs : List ℚ)
    (out : Bool × ZScoreVal) (ad1 : AnomalyDetector)
    (hstep : ProcessData ad x = some (out, ad1)) :
    runDetector ad (x :: xs) =
      (runDetector ad1 xs).map (fun r => (out :: r.1, r.2)) := by
  rw [runDetector, hstep]
  cases h : runDetector ad1 xs <;> simp [h]

lemma sqSum_cons (a : ℚ) (l : List ℚ) : sqSum (a :: l) = a * a + sqSum l := by
  unfold sqSum
  rw [List.map_cons, List.sum_cons]

lemma sqSum_append_singleton (l : List ℚ) (x : ℚ) :
    sqSum (l ++ [x]) = sqSum l + x * x := by
  unfold sqSum
  rw [List.map_append, List.sum_append]
  simp

lemma runDetector_spec : ∀ (xs : List ℚ) (ad : AnomalyDetector),
    1 ≤ ad.WindowSize →
    ad.dataWindow.length ≤ ad.WindowSize.toNat →
    ad.sum = ad.dataWindow.sum →
    ad.sumOfSquares = sqSum ad.dataWindow →
    ∃ outs ad',
      runDetector ad xs = some (outs, ad') ∧
      outs.length = xs.length ∧
      ad'.WindowSize = ad.WindowSize ∧
      ad'.Threshold = ad.Threshold ∧
      ad'.dataWindow = (ad.dataWindow ++ xs).drop
        ((ad.dataWindow.length + xs.length) - ad.WindowSize.toNat) ∧
      ad'.dataWindow.length ≤ ad.WindowSize.toNat ∧
      ad'.sum = ad'.dataWindow.sum ∧
      ad'.sumOfSquares = sqSum ad'.dataWindow := by
  intro xs
  induction xs with
  | nil =>
      intro ad hw hlen hsum hsq
      refine ⟨[], ad, rfl, rfl, rfl, rfl, ?_, hlen, hsum, hsq⟩
      simp only [List.length_nil, Nat.add_zero, List.append_nil]
      rw [Nat.sub_eq_zero_of_le hlen, List.drop_zero]
  | cons x xs ih =>
      intro ad hw hlen hsum hsq
      by_cases hfull : ad.WindowSize ≤ (ad.dataWindow.length : ℤ)
      · -- evicting step: the window is exactly full, hence nonempty
        have hk : 1 ≤ ad.WindowSize.toNat := by omega
        have hlen' : ad.WindowSize.toNat ≤ ad.dataWindow.length := by omega
        rcases hwin : ad.dataWindow with _ | ⟨a, rest⟩
        · rw [hwin] at hlen'
          simp at hlen'
          omega
        · have hlena : ad.dataWindow.length = rest.length + 1 := by
            rw [hwin]
            rfl
          have hstep := ProcessData_full ad x a rest hwin hfull
          set ad1 : AnomalyDetector :=
            { ad with
                dataWindow := rest ++ [x]
                sum := ad.sum - a + x
                sumOfSquares := ad.sumOfSquares - a * a + x * x } with had1
          have hW1 : ad1.WindowSize = ad.WindowSize := rfl
          have hwin1 : ad1.dataWindow = rest ++ [x] := rfl
          have hsum1 : ad1.sum = ad1.dataWindow.sum := by
            show ad.sum - a + x = (rest ++ [x]).sum
            rw [hwin, List.sum_cons] at hsum
            rw [List.sum_append, List.sum_cons, List.sum_nil, hsum]
            ring
          have hsq1 : ad1.sumOfSquares = sqSum ad1.dataWindow := by
            show ad.sumOfSquares - a * a + x * x = sqSum (rest ++ [x])
            rw [hwin, sqSum_cons] at hsq
            rw [sqSum_append_singleton, hsq]
            ring
          have hlen1 : ad1.dataWindow.length ≤ ad1.WindowSize.toNat := by
            rw [hW1, hwin1]
            simp only [List.length_append, List.length_cons, List.length_nil]
            omega
          obtain ⟨outs, ad', hrun, houts, hW, hT, hwin', hlen'', hsum', hsq'⟩ :=
            ih ad1 (by rw [hW1]; exact hw) hlen1 hsum1 hsq1
          refine ⟨classify ad.Threshold x (rest ++ [x]) (ad.sum - a + x)
              (ad.sumOfSquares - a * a + x * x) :: outs, ad', ?_,
            by simp [houts], by rw [hW, hW1],
            hT, ?_, by rw [← hW1]; exact hlen'', hsum', hsq'⟩
          · rw [runDetector_cons ad x xs _ ad1 hstep, hrun]
            rfl
          · rw [hwin', hwin1]
            have hkeq : ad.dataWindow.length = ad.WindowSize.toNat := by omega
            have e1 : rest ++ [x] ++ xs = rest ++ x :: xs := by simp
            have e3 : (rest ++ [x]).length + xs.length - ad1.WindowSize.toNat
                = xs.length := by
              rw [hW1]
              simp only [List.length_append, List.length_cons, List.length_nil]
              omega
            have e4 : (a :: rest).length + (x :: xs).length
                - ad.WindowSize.toNat = xs.length + 1 := by
              simp only [List.length_cons]
              omega
            rw [e1, e3, e4]
            rw [show a :: rest ++ x :: xs = a :: (rest ++ x :: xs) from rfl]
            rw [List.drop_succ_cons]
      · -- non-evicting step
        have hstep := ProcessData_not_full ad x hfull
        set ad1 : AnomalyDetector :=
          { ad with
              dataWindow := ad.dataWindow ++ [x]
              sum := ad.sum + x
              sumOfSquares := ad.sumOfSquares + x * x } with had1
        have hW1 : ad1.WindowSize = ad.WindowSize := rfl
        have hwin1 : ad1.dataWindow = ad.dataWindow ++ [x] := rfl
        have hsum1 : ad1.sum = ad1.dataWindow.sum := by
          show ad.sum + x = (ad.dataWindow ++ [x]).sum
          rw [List.sum_append, List.sum_cons, List.sum_nil, hsum]
          ring
        have hsq1 : ad1.sumOfSquares = sqSum ad1.dataWindow := by
          show ad.sumOfSquares + x * x = sqSum (ad.dataWindow ++ [x])
          rw [sqSum_append_singleton, hsq]
        have hlen1 : ad1.dataWindow.length ≤ ad1.WindowSize.toNat := by
          rw [hW1, hwin1]
          simp only [List.length_append, List.length_cons, List.length_nil]
          omega
        obtain ⟨outs, ad', hrun, houts, hW, hT, hwin', hlen'', hsum', hsq'⟩ :=
          ih ad1 (by rw [hW1]; exact hw) hlen1 hsum1 hsq1
        refine ⟨classify ad.Threshold x (ad.dataWindow ++ [x]) (ad.sum + x)
            (ad.sumOfSquares + x * x) :: outs, ad', ?_,
          by simp [houts], by rw [hW, hW1],
          hT, ?_, by rw [← hW1]; exact hlen'', hsum', hsq'⟩
        · rw [runDetector_cons ad x xs _ ad1 hstep, hrun]
          rfl
        · rw [hwin', hwin1]
          have e1 : (ad.dataWindow ++ [x]) ++ xs = ad.dataWindow ++ x :: xs := by
            simp
          have e2 : (ad.dataWindow ++ [x]).length + xs.length
              - ad1.WindowSize.toNat
              = ad.dataWindow.length + (x :: xs).length
                - ad.WindowSize.toNat := by
            rw [hW1]
            simp only [List.length_append, List.length_cons, List.length_nil]
            omega
          rw [e1, e2]

/-- C2: after any sequence of `n` `ProcessData` calls on a fresh detector
with `windowSize ≥ 1`, the window is exactly the most recent
`min(n, windowSize)` inputs in FIFO order, and the running `sum` and
`sumOfSquares` equal the sum and sum of squares recomputed from the
current window contents (exactly, in the exact-arithmetic model). -/
theorem C2_window_invariant (w : ℤ) (t : ℚ) (xs : List ℚ) (hw : 1 ≤ w) :
    ∃ outs ad',
      runDetector (NewDetector w t) xs = some (outs, ad') ∧
      outs.length = xs.length ∧
      ad'.dataWindow = xs.drop (xs.length - w.toNat) ∧
      ad'.dataWindow.length = min xs.length w.toNat ∧
      ad'.sum = ad'.dataWindow.sum ∧
      ad'.sumOfSquares = sqSum ad'.dataWindow := by
  obtain ⟨outs, ad', hrun, houts, hW, hT, hwin', hlen', hsum', hsq'⟩ :=
    runDetector_spec xs (NewDetector w t) hw (by simp [NewDetector])
      (by simp [NewDetector]) (by simp [NewDetector, sqSum])
  refine ⟨outs, ad', hrun, houts, ?_, ?_, hsum', hsq'⟩
  · rw [hwin']
    simp [NewDetector]
  · rw [hwin']
    simp only [NewDetector, List.length_nil, List.nil_append, Nat.zero_add,
      List.length_drop]
    omega

theorem C2_witness :
    ∃ outs ad',
      runDetector (NewDetector 2 0) [1, 2, 3] = some (outs, ad') ∧
      outs.length = ([1, 2, 3] : List ℚ).length ∧
      ad'.dataWindow = ([1, 2, 3] : List ℚ).drop
        (([1, 2, 3] : List ℚ).length - (2 : ℤ).toNat) ∧
      ad'.dataWindow.length = min ([1, 2, 3] : List ℚ).length (2 : ℤ).toNat ∧
      ad'.sum = ad'.dataWindow.sum ∧
      ad'.sumOfSquares = sqSum ad'.dataWindow :=
  C2_window_invariant 2 0 [1, 2, 3] (by norm_num)

/-- C3: `ProcessData` is deterministic — replaying the same input
sequence on two fresh detectors constructed with the same window size
and threshold yields identical `(isAnomaly, zScore)` outputs at every
step (the full output traces coincide). -/
theorem C3_determinism (w w' : ℤ) (t t' : ℚ) (xs : List ℚ)
    (hw : w = w') (ht : t = t') :
    runDetector (NewDetector w t) xs = runDetector (NewDetector w' t') xs := by
  rw [hw, ht]

theorem C3_witness :
    runDetector (NewDetector 3 1) [1, 5, 2] = runDetector (NewDetector 3 1) [1, 5, 2] :=
  C3_determinism 3 3 1 1 [1, 5, 2] rfl rfl

/-- C9: `ProcessData` never panics when `windowSize ≥ 1` (on any state
whatever, not just reachable ones), while for a fresh detector
constructed with `windowSize ≤ 0` the very first call takes the eviction
branch, indexes `dataWindow[0]` on the empty window, and panics
(modelled by `none`). -/
theorem C9_processData_totality :
    (∀ (ad : AnomalyDetector) (x : ℚ), 1 ≤ ad.WindowSize →
      ∃ r, ProcessData ad x = some r) ∧
    (∀ (w : ℤ) (t x : ℚ), w ≤ 0 →
      ProcessData (NewDetector w t) x = none) := by
  constructor
  · exact fun ad x h => ProcessData_isSome ad x h
  · intro w t x hw
    unfold ProcessData evictIfFull NewDetector
    simp
    omega

theorem C9_witness :
    (∃ r, ProcessData (NewDetector 1 0) 5 = some r) ∧
    ProcessData (NewDetector 0 0) 5 = none :=
  ⟨C9_processData_totality.1 (NewDetector 1 0) 5 (by simp [NewDetector]),
   C9_processData_totality.2 0 0 5 (by norm_num)⟩

/-- If the running statistics describe a window of `n ≥ 2` copies of the
same value `v`, the evaluation step computes `mean = v`, zero variance,
and takes the `stdDev == 0` branch with `newValue == mean`. -/
lemma classify_const (t v : ℚ) (win : List ℚ) (h2 : 2 ≤ win.length) :
    classify t v win ((win.length : ℚ) * v) ((win.length : ℚ) * (v * v))
      = (false, ZScoreVal.val 0) := by
  have hn0 : (win.length : ℚ) ≠ 0 := Nat.cast_ne_zero.mpr (by omega)
  have hmean : ((win.length : ℚ) * v) / (win.length : ℚ) = v := by
    field_simp
  have hvar : ((win.length : ℚ) * (v * v)) / (win.length : ℚ) - v * v = 0 := by
    field_simp
  simp only [classify, hmean, hvar]
  rw [if_neg (by omega)]
  norm_num

/-- If the window holds `m ≥ 1` copies of `v` followed by a fresh value
`x ≠ v`, the evaluation step computes a strictly positive variance and a
squared z-score equal to `m`. -/
lemma classify_outlier (t v x : ℚ) (m : ℕ) (hm : 1 ≤ m) (hx : x ≠ v) :
    classify t x (List.replicate m v ++ [x]) ((m : ℚ) * v + x)
        ((m : ℚ) * (v * v) + x * x)
      = (decide (t < 0 ∨ t * t < (m : ℚ)), ZScoreVal.val (m : ℚ)) := by
  have hlen : (List.replicate m v ++ [x]).length = m + 1 := by simp
  have hmpos : (0 : ℚ) < (m : ℚ) := by exact_mod_cast hm
  have hn0 : ((m : ℚ) + 1) ≠ 0 := by positivity
  have hvx : v - x ≠ 0 := sub_ne_zero.mpr (fun h => hx (h.symm))
  have hvar : ((m : ℚ) * (v * v) + x * x) / ((m : ℚ) + 1)
        - (((m : ℚ) * v + x) / ((m : ℚ) + 1)) * (((m : ℚ) * v + x) / ((m : ℚ) + 1))
      = (m : ℚ) * (v - x) ^ 2 / ((m : ℚ) + 1) ^ 2 := by
    field_simp
    ring
  have hvarpos : 0 < (m : ℚ) * (v - x) ^ 2 / ((m : ℚ) + 1) ^ 2 := by
    have h2 : 0 < (v - x) ^ 2 := by positivity
    positivity
  have hzsq : (x - ((m : ℚ) * v + x) / ((m : ℚ) + 1))
        * (x - ((m : ℚ) * v + x) / ((m : ℚ) + 1))
        / ((m : ℚ) * (v - x) ^ 2 / ((m : ℚ) + 1) ^ 2) = (m : ℚ) := by
    rw [div_eq_iff (ne_of_gt hvarpos)]
    field_simp
    ring
  simp only [classify, hlen]
  rw [if_neg (by omega)]
  push_cast
  rw [hvar, if_neg (not_lt.mpr hvarpos.le), if_neg (ne_of_gt hvarpos), hzsq]

/-- Detector state whose window holds `N` copies of `v` with running
statistics consistent with the window (the state reached by feeding `N`
copies of `v` into a fresh detector of capacity at least `N`). -/
def constWindowDetector (w : ℤ) (t v : ℚ) (N : ℕ) : AnomalyDetector :=
  { WindowSize := w
    Threshold := t
    dataWindow := List.replicate N v
    sum := (N : ℚ) * v
    sumOfSquares := (N : ℚ) * (v * v) }
/-- Restatement of `ProcessData_not_full` over a literal record. -/
lemma ProcessData_not_full_raw (w : ℤ) (t x : ℚ) (win : List ℚ) (s q : ℚ)
    (h : ¬ w ≤ (win.length : ℤ)) :
    ProcessData ⟨w, t, win, s, q⟩ x =
      some (classify t x (win ++ [x]) (s + x) (q + x * x),
        ⟨w, t, win ++ [x], s + x, q + x * x⟩) :=
  ProcessData_not_full ⟨w, t, win, s, q⟩ x h

/-- Restatement of `ProcessData_full` over a literal record. -/
lemma ProcessData_full_raw (w : ℤ) (t x a : ℚ) (rest : List ℚ) (s q : ℚ)
    (h : w ≤ (((a :: rest).length : ℕ) : ℤ)) :
    ProcessData ⟨w, t, a :: rest, s, q⟩ x =
      some (classify t x (rest ++ [x]) (s - a + x) (q - a * a + x * x),
        ⟨w, t, rest ++ [x], s - a + x, q - a * a + x * x⟩) :=
  ProcessData_full ⟨w, t, a :: rest, s, q⟩ x a rest rfl h

/-- C1 (amended): on a window of `N ≥ 2` identical values `v`,
processing `v` again returns `(false, 0)`; processing `x ≠ v` makes the
window non-constant, so the standard branch runs with squared z-score
equal to the number of copies of `v` remaining in the window (`N − 1`
after eviction when `windowSize ≤ N`, otherwise `N`), and the result is
anomalous only when the z-score exceeds the threshold — never the
`MaxFloat64` zero-variance outcome the claim predicts. -/
theorem C1_zero_variance_amended (w : ℤ) (t v x : ℚ) (N : ℕ) (hN : 2 ≤ N) :
    (x = v → ∃ ad', ProcessData (constWindowDetector w t v N) x
        = some ((false, ZScoreVal.val 0), ad')) ∧
    (x ≠ v → w ≤ (N : ℤ) → ∃ ad',
        ProcessData (constWindowDetector w t v N) x
        = some ((decide (t < 0 ∨ t * t < ((N : ℚ) - 1)),
            ZScoreVal.val ((N : ℚ) - 1)), ad')) ∧
    (x ≠ v → ¬ w ≤ (N : ℤ) → ∃ ad',
        ProcessData (constWindowDetector w t v N) x
        = some ((decide (t < 0 ∨ t * t < (N : ℚ)),
            ZScoreVal.val (N : ℚ)), ad')) := by
  obtain ⟨K, rfl⟩ : ∃ K, N = K + 2 := ⟨N - 2, by omega⟩
  have hrepl : List.replicate (K + 2) v = v :: List.replicate (K + 1) v := by
    rw [List.replicate_succ]
  have hL1 : (List.replicate (K + 1) v ++ [x]).length = K + 2 := by simp
  have hL1v : (List.replicate (K + 1) v ++ [v]).length = K + 2 := by simp
  have hL2 : (List.replicate (K + 2) v ++ [x]).length = K + 3 := by simp
  have hL2v : (List.replicate (K + 2) v ++ [v]).length = K + 3 := by simp
  refine ⟨?_, ?_, ?_⟩
  · rintro rfl
    by_cases hfull : w ≤ (((x :: List.replicate (K + 1) x).length : ℕ) : ℤ)
    · exact ⟨_, by
      show ProcessData ⟨w, t, x :: List.replicate (K + 1) x,
        ((K + 2 : ℕ) : ℚ) * x, ((K + 2 : ℕ) : ℚ) * (x * x)⟩ x = _
      rw [ProcessData_full_raw w t x x (List.replicate (K + 1) x) _ _ hfull]
      have hc := classify_const t x (List.replicate (K + 1) x ++ [x])
        (by rw [show (List.replicate (K + 1) x ++ [x]).length = K + 2 from by simp]; omega)
      rw [show (List.replicate (K + 1) x ++ [x]).length = K + 2 from by simp] at hc
      rw [show ((K + 2 : ℕ) : ℚ) * x - x + x = ((K + 2 : ℕ) : ℚ) * x from by ring,
        show ((K + 2 : ℕ) : ℚ) * (x * x) - x * x + x * x = ((K + 2 : ℕ) : ℚ) * (x * x) from by ring,
        hc]⟩
    · exact ⟨_, by
      show ProcessData ⟨w, t, List.replicate (K + 2) x,
        ((K + 2 : ℕ) : ℚ) * x, ((K + 2 : ℕ) : ℚ) * (x * x)⟩ x = _
      rw [ProcessData_not_full_raw w t x (List.replicate (K + 2) x) _ _
        (by rw [List.length_replicate]; exact fun hc => hfull (by simpa using hc))]
      have hc := classify_const t x (List.replicate (K + 2) x ++ [x])
        (by rw [show (List.replicate (K + 2) x ++ [x]).length = K + 3 from by simp]; omega)
      rw [show (List.replicate (K + 2) x ++ [x]).length = K + 3 from by simp] at hc
      rw [show ((K + 2 : ℕ) : ℚ) * x + x = ((K + 3 : ℕ) : ℚ) * x from by push_cast; ring,
        show ((K + 2 : ℕ) : ℚ) * (x * x) + x * x = ((K + 3 : ℕ) : ℚ) * (x * x) from by push_cast; ring,
        hc]⟩
  · intro hx hfull
    exact ⟨_, by
      show ProcessData ⟨w, t, v :: List.replicate (K + 1) v,
        ((K + 2 : ℕ) : ℚ) * v, ((K + 2 : ℕ) : ℚ) * (v * v)⟩ x = _
      rw [ProcessData_full_raw w t x v (List.replicate (K + 1) v) _ _
        (by rw [show ((v :: List.replicate (K + 1) v).length : ℕ) = K + 2 from by simp]; exact_mod_cast hfull)]
      have hcl := classify_outlier t v x (K + 1) (by omega) hx
      rw [show ((K + 2 : ℕ) : ℚ) * v - v + x = ((K + 1 : ℕ) : ℚ) * v + x from by push_cast; ring,
        show ((K + 2 : ℕ) : ℚ) * (v * v) - v * v + x * x = ((K + 1 : ℕ) : ℚ) * (v * v) + x * x from by push_cast; ring,
        hcl,
        show ((K + 1 : ℕ) : ℚ) = ((K + 2 : ℕ) : ℚ) - 1 from by push_cast; ring]⟩
  · intro hx hfull
    exact ⟨_, by
      show ProcessData ⟨w, t, List.replicate (K + 2) v,
        ((K + 2 : ℕ) : ℚ) * v, ((K + 2 : ℕ) : ℚ) * (v * v)⟩ x = _
      rw [ProcessData_not_full_raw w t x (List.replicate (K + 2) v) _ _
        (by rw [List.length_replicate]; exact fun hc => hfull (by simpa using hc))]
      have hcl := classify_outlier t v x (K + 2) (by omega) hx
      rw [hcl]⟩

/-- C1 counterexample: a detector with window size 10 and threshold 3.5
holding the two identical values `[10, 10]` (`N = 2`, `v = 10`), given
the new value `20 ≠ 10`, returns `isAnomaly = false` with squared
z-score `2` (i.e. `zScore = √2 ≈ 1.41 < 3.5`) — not `isAnomaly = true`
with `zScore = math.MaxFloat64` as the claim states. -/
theorem C1_counterexample :
    ProcessData (constWindowDetector 10 (7/2) 10 2) 20 =
      some ((false, ZScoreVal.val 2),
        ⟨10, 7/2, [10, 10, 20], 40, 600⟩) ∧
    (false, ZScoreVal.val 2) ≠ (true, ZScoreVal.maxFloat) := by
  constructor
  · show ProcessData ⟨10, 7/2, [10, 10], (2 : ℚ) * 10, (2 : ℚ) * (10 * 10)⟩ 20 = _
    simp only [ProcessData, evictIfFull, classify]
    norm_num
  · simp

theorem C1_witness :
    ((20 : ℚ) = 10 → ∃ ad', ProcessData (constWindowDetector 10 (7/2) 10 2) 20
        = some ((false, ZScoreVal.val 0), ad')) ∧
    ((20 : ℚ) ≠ 10 → (10 : ℤ) ≤ ((2 : ℕ) : ℤ) → ∃ ad',
        ProcessData (constWindowDetector 10 (7/2) 10 2) 20
        = some ((decide ((7/2 : ℚ) < 0 ∨ (7/2 : ℚ) * (7/2) < (((2 : ℕ) : ℚ) - 1)),
            ZScoreVal.val (((2 : ℕ) : ℚ) - 1)), ad')) ∧
    ((20 : ℚ) ≠ 10 → ¬ (10 : ℤ) ≤ ((2 : ℕ) : ℤ) → ∃ ad',
        ProcessData (constWindowDetector 10 (7/2) 10 2) 20
        = some ((decide ((7/2 : ℚ) < 0 ∨ (7/2 : ℚ) * (7/2) < ((2 : ℕ) : ℚ)),
            ZScoreVal.val ((2 : ℕ) : ℚ)), ad')) :=
  C1_zero_variance_amended 10 (7/2) 10 20 2 (by norm_num)

/-!
RedTeam fault injector (`internal/redteam/redteam.go`).  Time is modelled
as an abstract rational instant passed explicitly where the Go code reads
the wall clock (`time.Now()` / `time.Since`); the `math/rand` source is
modelled as a stream of pre-drawn values `randStream : ℕ → ℚ` indexed by
`randIndex` (each value being an output of `rand.Float64()`, i.e. in
`[0, 1)`); maps are modelled as association lists with newest-binding
shadowing (`List.lookup`).  The `Parameters map[string]interface{}` field
carries no logic relevant to the claims and is omitted.
-/

/-- Mirrors `FaultConfig` of `internal/redteam/redteam.go` (`Type`,
`Probability`, `Duration`, `Enabled`; `Parameters` omitted, see above). -/
structure FaultConfig where
  type : String
  probability : ℚ
  duration : ℚ
  enabled : Bool
deriving DecidableEq, Repr

/-- Mirrors the `RedTeam` struct: the fault-configuration table, the
active-fault table (fault type ↦ activation instant), and the random
source (stream plus cursor). -/
structure RedTeam where
  faultConfigs : List (String × FaultConfig)
  activeFaults : List (String × ℚ)
  randStream : ℕ → ℚ
  randIndex : ℕ

/-- Mirrors `NewRedTeam`: empty tables, fresh random source. -/
def NewRedTeam (stream : ℕ → ℚ) : RedTeam :=
  { faultConfigs := []
    activeFaults := []
    randStream := stream
    randIndex := 0 }

/-- Mirrors `ConfigureFault` (`redteam.go` lines 50–59): stores the
definition under its type after unconditionally setting
`config.Enabled = true`. -/
def ConfigureFault (rt : RedTeam) (config : FaultConfig) : RedTeam :=
  { rt with
      faultConfigs := (config.type, { config with enabled := true }) :: rt.faultConfigs }

/-- The dice roll of `ShouldInjectFault` (`redteam.go` lines 104–114):
draw the next `rand.Float64()` value; if it is below the configured
probability, record the activation instant and report the fault. -/
def rollFault (rt : RedTeam) (faultType : String) (config : FaultConfig)
    (now : ℚ) : Bool × RedTeam :=
  let r := rt.randStream rt.randIndex
  if r < config.probability then
    (true, { rt with
        activeFaults := (faultType, now) :: rt.activeFaults
        randIndex := rt.randIndex + 1 })
  else
    (false, { rt with randIndex := rt.randIndex + 1 })

/-- Mirrors `ShouldInjectFault` (`redteam.go` lines 85–115), with `now`
standing for the wall-clock instant of the call: unknown or disabled
faults yield `false`; a fault already active and still within its
duration yields `true` without consuming randomness; otherwise a fresh
`rand.Float64()` draw is compared against the probability. -/
def ShouldInjectFault (rt : RedTeam) (faultType : String) (now : ℚ) :
    Bool × RedTeam :=
  match rt.faultConfigs.lookup faultType with
  | none => (false, rt)
  | some config =>
    if config.enabled = false then
      (false, rt)
    else
      match rt.activeFaults.lookup faultType with
      | some activeTime =>
          if now - activeTime < config.duration then
            (true, rt)
          else
            rollFault rt faultType config now
      | none => rollFault rt faultType config now

/-- C10: `ConfigureFault` stores the fault definition with
`Enabled := true` regardless of the `Enabled` value supplied by the
caller — in particular a definition passed with `enabled = false` is
armed immediately. -/
theorem C10_configureFault_forces_enabled (rt : RedTeam) (config : FaultConfig) :
    (ConfigureFault rt config).faultConfigs.lookup config.type
      = some { config with enabled := true } ∧
    (ConfigureFault rt { config with enabled := false }).faultConfigs.lookup
        config.type
      = some { config with enabled := true } := by
  constructor <;> simp [ConfigureFault]

theorem C10_witness :
    (ConfigureFault (NewRedTeam fun _ => 0)
        ⟨"latency", 1, 10, false⟩).faultConfigs.lookup "latency"
      = some ⟨"latency", 1, 10, true⟩ :=
  (C10_configureFault_forces_enabled (NewRedTeam fun _ => 0)
    ⟨"latency", 1, 10, false⟩).1

/-- C4 (amended): for an enabled fault with probability 1 whose random
source only produces values in `[0, 1)`, a call with no active instance
rolls, wins and activates; a call while active and within the duration
returns true without touching the state (no re-roll); but a call made
once the duration has elapsed falls through to a fresh roll, which at
probability 1 always succeeds again — it returns true and re-activates,
not false as the claim states. -/
theorem C4_fault_duration_amended (rt : RedTeam) (ft : String)
    (cfg : FaultConfig) (t0 now : ℚ)
    (hcfg : rt.faultConfigs.lookup ft = some cfg)
    (hen : cfg.enabled = true)
    (hp : cfg.probability = 1)
    (hstream : ∀ i, 0 ≤ rt.randStream i ∧ rt.randStream i < 1) :
    (rt.activeFaults.lookup ft = none →
      ShouldInjectFault rt ft now
        = (true, { rt with
            activeFaults := (ft, now) :: rt.activeFaults
            randIndex := rt.randIndex + 1 })) ∧
    (rt.activeFaults.lookup ft = some t0 → now - t0 < cfg.duration →
      ShouldInjectFault rt ft now = (true, rt)) ∧
    (rt.activeFaults.lookup ft = some t0 → ¬ now - t0 < cfg.duration →
      ShouldInjectFault rt ft now
        = (true, { rt with
            activeFaults := (ft, now) :: rt.activeFaults
            randIndex := rt.randIndex + 1 })) := by
  have hroll : rollFault rt ft cfg now
      = (true, { rt with
          activeFaults := (ft, now) :: rt.activeFaults
          randIndex := rt.randIndex + 1 }) := by
    unfold rollFault
    rw [hp, if_pos (hstream rt.randIndex).2]
  refine ⟨?_, ?_, ?_⟩
  · intro hact
    unfold ShouldInjectFault
    rw [hcfg, hact]
    simp [hen, hroll]
  · intro hact hdur
    unfold ShouldInjectFault
    rw [hcfg, hact]
    simp [hen, hdur]
  · intro hact hdur
    unfold ShouldInjectFault
    rw [hcfg, hact]
    simp [hen, hdur, hroll]

/-- C4 counterexample: fault "latency" configured with probability 1 and
duration 10, random source constantly 0.  The first call (time 0)
injects and activates; a later call at time 20 — after the duration has
elapsed — returns `true` again (the probability is re-rolled and wins),
not `false` as the claim states. -/
theorem C4_counterexample :
    (ShouldInjectFault (ConfigureFault (NewRedTeam fun _ => 0)
        ⟨"latency", 1, 10, false⟩) "latency" 0).1 = true ∧
    (ShouldInjectFault (ShouldInjectFault (ConfigureFault (NewRedTeam fun _ => 0)
        ⟨"latency", 1, 10, false⟩) "latency" 0).2 "latency" 20).1 = true := by
  constructor <;>
    · simp only [ShouldInjectFault, ConfigureFault, NewRedTeam, rollFault,
        List.lookup]
      norm_num

theorem C4_witness :
    ((ConfigureFault (NewRedTeam fun _ => 0)
        ⟨"latency", 1, 10, false⟩).activeFaults.lookup "latency" = none →
      ShouldInjectFault (ConfigureFault (NewRedTeam fun _ => 0)
          ⟨"latency", 1, 10, false⟩) "latency" 5
        = (true, { ConfigureFault (NewRedTeam fun _ => 0)
              ⟨"latency", 1, 10, false⟩ with
            activeFaults := ("latency", 5) :: (ConfigureFault (NewRedTeam fun _ => 0)
              ⟨"latency", 1, 10, false⟩).activeFaults
            randIndex := (ConfigureFault (NewRedTeam fun _ => 0)
              ⟨"latency", 1, 10, false⟩).randIndex + 1 })) ∧
    ((ConfigureFault (NewRedTeam fun _ => 0)
        ⟨"latency", 1, 10, false⟩).activeFaults.lookup "latency" = some 2 →
      (5 : ℚ) - 2 < (10 : ℚ) →
      ShouldInjectFault (ConfigureFault (NewRedTeam fun _ => 0)
          ⟨"latency", 1, 10, false⟩) "latency" 5
        = (true, ConfigureFault (NewRedTeam fun _ => 0)
            ⟨"latency", 1, 10, false⟩)) ∧
    ((ConfigureFault (NewRedTeam fun _ => 0)
        ⟨"latency", 1, 10, false⟩).activeFaults.lookup "latency" = some 2 →
      ¬ (5 : ℚ) - 2 < (10 : ℚ) →
      ShouldInjectFault (ConfigureFault (NewRedTeam fun _ => 0)
          ⟨"latency", 1, 10, false⟩) "latency" 5
        = (true, { ConfigureFault (NewRedTeam fun _ => 0)
              ⟨"latency", 1, 10, false⟩ with
            activeFaults := ("latency", 5) :: (ConfigureFault (NewRedTeam fun _ => 0)
              ⟨"latency", 1, 10, false⟩).activeFaults
            randIndex := (ConfigureFault (NewRedTeam fun _ => 0)
              ⟨"latency", 1, 10, false⟩).randIndex + 1 })) :=
  C4_fault_duration_amended (ConfigureFault (NewRedTeam fun _ => 0)
      ⟨"latency", 1, 10, false⟩) "latency" ⟨"latency", 1, 10, true⟩ 2 5
    (by simp [ConfigureFault, NewRedTeam])
    rfl rfl
    (fun i => by constructor <;> norm_num [ConfigureFault, NewRedTeam])

/-!
BlueTeam self-healing (`internal/blueteam/blueteam.go`).  Go string enums
(`IssueType`, `HealingStrategy`) are modelled as `String`; the formatted
action id `fmt.Sprintf("heal_%d_%s", time.Now().UnixNano(), issueType)`
is modelled by its two format arguments, an instant and the issue kind.
-/

/-- Mirrors the `HealingAction` struct of `internal/blueteam/blueteam.go`
(fields `ID`, `Type`, `Strategy`, `Description`, `Timestamp`, `Status`,
`Success`, `Error`). -/
structure HealingAction where
  id : ℚ × String
  issueType : String
  strategy : String
  description : String
  timestamp : ℚ
  status : String
  success : Bool
  error : String
deriving DecidableEq, Repr

/-- Mirrors the state of the `BlueTeam` struct that the healing path
touches (`healingActions`, `maxActions`, `healingEnabled`; the monitor
plumbing has no algorithmic content for the claims). -/
structure BlueTeam where
  healingActions : List HealingAction
  maxActions : ℤ
  healingEnabled : Bool
deriving DecidableEq, Repr

/-- Mirrors `executeHealingStrategy` (`blueteam.go` lines 214–230): the
five known strategies append a completion note to the description and
report success; the default branch records the unknown strategy in the
action and reports failure. -/
def executeHealingStrategy (strategy : String) (action : HealingAction) :
    HealingAction × Bool :=
  if strategy = "reset_detector" then
    ({ action with description := action.description ++ " - Detector reset completed" }, true)
  else if strategy = "circuit_breaker" then
    ({ action with description := action.description ++ " - Circuit breaker activated" }, true)
  else if strategy = "fallback_mode" then
    ({ action with description := action.description ++ " - Fallback mode activated" }, true)
  else if strategy = "resource_cleanup" then
    ({ action with description := action.description ++ " - Resource cleanup completed" }, true)
  else if strategy = "config_reload" then
    ({ action with description := action.description ++ " - Configuration reloaded" }, true)
  else
    ({ action with error := "Unknown healing strategy: " ++ strategy }, false)

/-- The action-record construction and outcome stamping of
`initiateHealing` (`blueteam.go` lines 179–200): build the action,
execute the strategy, then mark it completed on success or failed on
failure — the failure path overwrites `Error` with the generic
"Healing strategy execution failed" message. -/
def stampHealingAction (issueType strategy description : String) (now : ℚ) :
    HealingAction :=
  let action0 : HealingAction :=
    { id := (now, issueType)
      issueType := issueType
      strategy := strategy
      description := description
      timestamp := now
      status := "initiated"
      success := false
      error := "" }
  let r := executeHealingStrategy strategy action0
  if r.2 then
    { r.1 with status := "completed", success := true }
  else
    { r.1 with
        status := "failed"
        success := false
        error := "Healing strategy execution failed" }

/-- Mirrors `initiateHealing` (`blueteam.go` lines 178–211): build and
stamp the action record, append it to the history, and, when the history
exceeds `maxActions`, drop the single oldest entry
(`bt.healingActions = bt.healingActions[1:]`). -/
def initiateHealing (bt : BlueTeam) (issueType strategy description : String)
    (now : ℚ) : BlueTeam × HealingAction :=
  let action2 := stampHealingAction issueType strategy description now
  let acts := bt.healingActions ++ [action2]
  let acts2 := if bt.maxActions < (acts.length : ℤ) then acts.drop 1 else acts
  ({ bt with healingActions := acts2 }, action2)

/-- Mirrors `HealOnDemand` (`blueteam.go` lines 273–279). -/
def HealOnDemand (bt : BlueTeam) (issueType strategy : String) (now : ℚ) :
    BlueTeam × HealingAction :=
  initiateHealing bt issueType strategy
    ("On-demand healing for " ++ issueType ++ " using " ++ strategy ++ " strategy")
    now


lemma initiateHealing_snd (bt : BlueTeam)
    (issueType strategy description : String) (now : ℚ) :
    (initiateHealing bt issueType strategy description now).2
      = stampHealingAction issueType strategy description now := rfl

lemma initiateHealing_fst (bt : BlueTeam)
    (issueType strategy description : String) (now : ℚ) :
    (initiateHealing bt issueType strategy description now).1.healingActions
      = if bt.maxActions
          < ((bt.healingActions
              ++ [stampHealingAction issueType strategy description now]).length : ℤ)
        then (bt.healingActions
              ++ [stampHealingAction issueType strategy description now]).drop 1
        else bt.healingActions
              ++ [stampHealingAction issueType strategy description now] := rfl

/-- C5 (amended): when the healing history is at (or beyond) capacity,
recording a new action evicts exactly the single oldest entry — the
history becomes `tail ++ [new action]` and its length is unchanged —
never a 10% bulk eviction. -/
theorem C5_single_eviction_amended (bt : BlueTeam)
    (issueType strategy description : String) (now : ℚ)
    (hmax : 1 ≤ bt.maxActions)
    (hfull : bt.maxActions ≤ (bt.healingActions.length : ℤ)) :
    (initiateHealing bt issueType strategy description now).1.healingActions
      = bt.healingActions.tail
        ++ [(initiateHealing bt issueType strategy description now).2] ∧
    (initiateHealing bt issueType strategy description now).1.healingActions.length
      = bt.healingActions.length := by
  have hne : 1 ≤ bt.healingActions.length := by omega
  have hcond : bt.maxActions
      < ((bt.healingActions
          ++ [stampHealingAction issueType strategy description now]).length : ℤ) := by
    simp only [List.length_append, List.length_cons, List.length_nil]
    push_cast
    omega
  constructor
  · rw [initiateHealing_fst, initiateHealing_snd, if_pos hcond,
      List.drop_append_of_le_length hne, List.drop_one]
  · rw [initiateHealing_fst, if_pos hcond, List.length_drop,
      List.length_append]
    simp

/-- C5 counterexample: a history of 20 actions at capacity
`maxActions = 20`.  Recording one more leaves 20 entries with exactly the
single oldest evicted (`tail ++ [new]`), not the 19 entries that an
"oldest 10% in one bulk operation" policy (2 of 20) would leave. -/
theorem C5_counterexample :
    (HealOnDemand
        ⟨List.replicate 20 ⟨(0, "x"), "x", "circuit_breaker", "d", 0, "completed", true, ""⟩,
         20, true⟩ "high_latency" "circuit_breaker" 0).1.healingActions
      = List.replicate 19 ⟨(0, "x"), "x", "circuit_breaker", "d", 0, "completed", true, ""⟩
        ++ [(HealOnDemand
            ⟨List.replicate 20 ⟨(0, "x"), "x", "circuit_breaker", "d", 0, "completed", true, ""⟩,
             20, true⟩ "high_latency" "circuit_breaker" 0).2] ∧
    (HealOnDemand
        ⟨List.replicate 20 ⟨(0, "x"), "x", "circuit_breaker", "d", 0, "completed", true, ""⟩,
         20, true⟩ "high_latency" "circuit_breaker" 0).1.healingActions.length = 20 ∧
    (20 : ℕ) ≠ 21 - 20 / 10 := by
  refine ⟨?_, by decide, by decide⟩
  decide

theorem C5_witness :
    (1 : ℤ) ≤ (20 : ℤ) ∧
    ((initiateHealing
        ⟨List.replicate 20 ⟨(0, "x"), "x", "circuit_breaker", "d", 0, "completed", true, ""⟩,
         20, true⟩ "high_latency" "circuit_breaker" "d2" 0).1.healingActions
      = (List.replicate 20 ⟨(0, "x"), "x", "circuit_breaker", "d", 0, "completed", true, ""⟩ :
          List HealingAction).tail
        ++ [(initiateHealing
            ⟨List.replicate 20 ⟨(0, "x"), "x", "circuit_breaker", "d", 0, "completed", true, ""⟩,
             20, true⟩ "high_latency" "circuit_breaker" "d2" 0).2] ∧
    (initiateHealing
        ⟨List.replicate 20 ⟨(0, "x"), "x", "circuit_breaker", "d", 0, "completed", true, ""⟩,
         20, true⟩ "high_latency" "circuit_breaker" "d2" 0).1.healingActions.length
      = (List.replicate 20 (⟨(0, "x"), "x", "circuit_breaker", "d", 0, "completed", true, ""⟩ :
          HealingAction)).length) :=
  ⟨by decide,
   C5_single_eviction_amended
     ⟨List.replicate 20 ⟨(0, "x"), "x", "circuit_breaker", "d", 0, "completed", true, ""⟩,
      20, true⟩ "high_latency" "circuit_breaker" "d2" 0 (by decide) (by decide)⟩

/-- C8 (amended): healing with an unknown strategy kind always returns a
record (the model is total by construction) whose `Success` is false and
`Status` is "failed"; but its `Error` field is the generic
"Healing strategy execution failed" — the specific
"Unknown healing strategy: ..." message written by the dispatch default
branch is overwritten by `initiateHealing` before the record is
returned, so the record does not name the unknown strategy. -/
theorem C8_unknown_strategy_amended (bt : BlueTeam)
    (issueType strategy : String) (now : ℚ)
    (h1 : strategy ≠ "reset_detector") (h2 : strategy ≠ "circuit_breaker")
    (h3 : strategy ≠ "fallback_mode") (h4 : strategy ≠ "resource_cleanup")
    (h5 : strategy ≠ "config_reload") :
    (HealOnDemand bt issueType strategy now).2.success = false ∧
    (HealOnDemand bt issueType strategy now).2.status = "failed" ∧
    (HealOnDemand bt issueType strategy now).2.error
      = "Healing strategy execution failed" := by
  have hsnd : (HealOnDemand bt issueType strategy now).2
      = stampHealingAction issueType strategy
          ("On-demand healing for " ++ issueType ++ " using " ++ strategy ++ " strategy")
          now := rfl
  rw [hsnd]
  simp [stampHealingAction, executeHealingStrategy, h1, h2, h3, h4, h5]

/-- C8 counterexample: healing on demand with the unknown strategy
"bogus" yields a record whose `Error` is the generic message; the
strategy name does not occur anywhere in it, so the record does not
report the unknown strategy. -/
theorem C8_counterexample :
    (HealOnDemand ⟨[], 1000, true⟩ "fault_injection" "bogus" 0).2.error
      = "Healing strategy execution failed" ∧
    ¬ ("bogus".toList <:+:
      (HealOnDemand ⟨[], 1000, true⟩ "fault_injection" "bogus" 0).2.error.toList) := by
  constructor <;> decide

theorem C8_witness :
    (HealOnDemand ⟨[], 1000, true⟩ "fault_injection" "bogus" 0).2.success = false ∧
    (HealOnDemand ⟨[], 1000, true⟩ "fault_injection" "bogus" 0).2.status = "failed" ∧
    (HealOnDemand ⟨[], 1000, true⟩ "fault_injection" "bogus" 0).2.error
      = "Healing strategy execution failed" :=
  C8_unknown_strategy_amended ⟨[], 1000, true⟩ "fault_injection" "bogus" 0
    (by decide) (by decide) (by decide) (by decide) (by decide)

/-!
Audit ledger (`internal/audit/audit.go`).  The formatted event id
`fmt.Sprintf("evt_%d_%d", time.Now().UnixNano(), a.eventCounter)` is
modelled by its two format arguments; the wall clock is an explicit
parameter.  The file encoder and console logging are I/O side effects
with no bearing on the in-memory store.
-/

/-- Mirrors the fields of `AuditEvent` (`internal/audit/audit.go`) that
`LogEvent` reads or writes: the id (time and counter components), the
timestamp, and the caller-supplied classification payload. -/
structure AuditEvent where
  idTime : ℚ
  idCounter : ℤ
  timestamp : ℚ
  eventType : String
  status : String
  message : String
  component : String
deriving DecidableEq, Repr

/-- Mirrors the in-memory state of the `Auditor` struct (`events`,
`maxEvents`, `eventCounter`; the output file and encoder are I/O). -/
structure Auditor where
  events : List AuditEvent
  maxEvents : ℤ
  eventCounter : ℤ
deriving DecidableEq, Repr

/-- The id/timestamp stamping of `LogEvent` (`audit.go` lines 111–113):
`event.ID = fmt.Sprintf("evt_%d_%d", now, counter)`,
`event.Timestamp = now`. -/
def stampEvent (event : AuditEvent) (now : ℚ) (counter : ℤ) : AuditEvent :=
  { event with
      idTime := now
      idCounter := counter
      timestamp := now }

/-- Mirrors `LogEvent` (`audit.go` lines 106–138): increment the
counter, stamp id and timestamp on the event, append it, and once the
store exceeds `maxEvents` drop the oldest `maxEvents/10` — raised to a
minimum of 100 — events in one bulk re-slice `a.events[removeCount:]`.
`none` models the Go runtime panic "slice bounds out of range" raised by
that re-slice whenever `removeCount` exceeds the store length (reachable
for any configured `maxEvents ≤ 98`, whose first overflow has at most 99
stored events but `removeCount = 100`). -/
def LogEvent (a : Auditor) (event : AuditEvent) (now : ℚ) : Option Auditor :=
  let counter1 := a.eventCounter + 1
  let event1 := stampEvent event now counter1
  let events1 := a.events ++ [event1]
  if a.maxEvents < (events1.length : ℤ) then
    let removeCount := if a.maxEvents / 10 < 100 then (100 : ℤ) else a.maxEvents / 10
    if (events1.length : ℤ) < removeCount then
      none
    else
      some { a with events := events1.drop removeCount.toNat, eventCounter := counter1 }
  else
    some { a with events := events1, eventCounter := counter1 }

/-- C7 counterexample: an auditor configured with `maxEvents = 50`
holding 50 events.  The next append overflows, computes
`removeCount = max(50/10, 100) = 100 > 51` and panics on
`a.events[100:]` (modelled by `none`) — the append neither stores the
event nor performs the claimed bulk eviction. -/
theorem C7_counterexample :
    LogEvent
      ⟨List.replicate 50 ⟨0, 0, 0, "decision", "compliant", "m", "c"⟩, 50, 0⟩
      ⟨0, 0, 0, "decision", "compliant", "m", "c"⟩ 1 = none := by
  decide

/-- C7 (amended): when the bulk-removal count `max(maxEvents/10, 100)`
does not exceed the post-append store size (always true for the default
`maxEvents = 100000`, and for any `maxEvents ≥ 99`), `LogEvent` assigns
the stored event a counter-based id that strictly exceeds the counter of
every event already in the store (so ids are strictly increasing across
appends), stamps it with the call instant, appends it, and once the
store exceeds `maxEvents` evicts the oldest `max(maxEvents/10, 100)`
events in a single bulk removal, preserving the counter bound; but when
the store overflows while holding fewer than `max(maxEvents/10, 100)`
events — reachable for any configured `maxEvents ≤ 98` — the append
panics on the slice re-slice instead of evicting. -/
theorem C7_ledger_append_amended (a : Auditor) (event : AuditEvent) (now : ℚ)
    (hinv : ∀ e ∈ a.events, e.idCounter ≤ a.eventCounter) :
    (stampEvent event now (a.eventCounter + 1)).idCounter = a.eventCounter + 1 ∧
    (stampEvent event now (a.eventCounter + 1)).timestamp = now ∧
    (∀ e ∈ a.events, e.idCounter
      < (stampEvent event now (a.eventCounter + 1)).idCounter) ∧
    ((a.maxEvents
        < ((a.events ++ [stampEvent event now (a.eventCounter + 1)]).length : ℤ) →
      max (a.maxEvents / 10) 100
        ≤ ((a.events ++ [stampEvent event now (a.eventCounter + 1)]).length : ℤ)) →
      ∃ a', LogEvent a event now = some a' ∧
        a'.eventCounter = a.eventCounter + 1 ∧
        a'.events
          = (if a.maxEvents
                < ((a.events ++ [stampEvent event now (a.eventCounter + 1)]).length : ℤ)
             then (a.events ++ [stampEvent event now (a.eventCounter + 1)]).drop
                (max (a.maxEvents / 10) 100).toNat
             else a.events ++ [stampEvent event now (a.eventCounter + 1)]) ∧
        (∀ e ∈ a'.events, e.idCounter ≤ a'.eventCounter)) ∧
    (a.maxEvents
        < ((a.events ++ [stampEvent event now (a.eventCounter + 1)]).length : ℤ) →
      ((a.events ++ [stampEvent event now (a.eventCounter + 1)]).length : ℤ)
        < max (a.maxEvents / 10) 100 →
      LogEvent a event now = none) := by
  have hrc : (if a.maxEvents / 10 < 100 then (100 : ℤ) else a.maxEvents / 10)
      = max (a.maxEvents / 10) 100 := by
    split <;> omega
  have hstep : LogEvent a event now
      = (if a.maxEvents
            < ((a.events ++ [stampEvent event now (a.eventCounter + 1)]).length : ℤ)
         then
          if ((a.events ++ [stampEvent event now (a.eventCounter + 1)]).length : ℤ)
              < (if a.maxEvents / 10 < 100 then (100 : ℤ) else a.maxEvents / 10) then
            none
          else
            some { a with
              events := (a.events ++ [stampEvent event now (a.eventCounter + 1)]).drop
                (if a.maxEvents / 10 < 100 then (100 : ℤ) else a.maxEvents / 10).toNat
              eventCounter := a.eventCounter + 1 }
         else
          some { a with
            events := a.events ++ [stampEvent event now (a.eventCounter + 1)]
            eventCounter := a.eventCounter + 1 }) := rfl
  have hmono : ∀ e ∈ a.events ++ [stampEvent event now (a.eventCounter + 1)],
      e.idCounter ≤ a.eventCounter + 1 := by
    intro e hmem
    rcases List.mem_append.mp hmem with hmem | hmem
    · have := hinv e hmem
      omega
    · rcases List.mem_singleton.mp hmem with rfl
      exact le_refl _
  refine ⟨rfl, rfl, ?_, ?_, ?_⟩
  · intro e he
    have := hinv e he
    show e.idCounter < a.eventCounter + 1
    omega
  · intro hsafe
    by_cases hc : a.maxEvents
        < ((a.events ++ [stampEvent event now (a.eventCounter + 1)]).length : ℤ)
    · have hnp : ¬ ((a.events ++ [stampEvent event now (a.eventCounter + 1)]).length : ℤ)
          < (if a.maxEvents / 10 < 100 then (100 : ℤ) else a.maxEvents / 10) := by
        rw [hrc]
        exact not_lt.mpr (hsafe hc)
      rw [hstep, if_pos hc, if_neg hnp]
      refine ⟨_, rfl, rfl, ?_, ?_⟩
      · show (a.events ++ [stampEvent event now (a.eventCounter + 1)]).drop
            (if a.maxEvents / 10 < 100 then (100 : ℤ) else a.maxEvents / 10).toNat = _
        rw [hrc, if_pos hc]
      · intro e he
        exact hmono e (List.mem_of_mem_drop he)
    · rw [hstep, if_neg hc]
      refine ⟨_, rfl, rfl, by rw [if_neg hc], hmono⟩
  · intro hc hlen
    have hp : ((a.events ++ [stampEvent event now (a.eventCounter + 1)]).length : ℤ)
        < (if a.maxEvents / 10 < 100 then (100 : ℤ) else a.maxEvents / 10) := by
      rw [hrc]
      exact hlen
    rw [hstep, if_pos hc, if_pos hp]

theorem C7_witness :
    (stampEvent ⟨0, 0, 0, "security", "compliant", "m", "auditor"⟩ 1 (0 + 1)).idCounter
      = 0 + 1 ∧
    (stampEvent ⟨0, 0, 0, "security", "compliant", "m", "auditor"⟩ 1 (0 + 1)).timestamp = 1 ∧
    (∀ e ∈ ([] : List AuditEvent), e.idCounter
      < (stampEvent ⟨0, 0, 0, "security", "compliant", "m", "auditor"⟩ 1 (0 + 1)).idCounter) ∧
    (((100000 : ℤ)
        < ((([] : List AuditEvent)
          ++ [stampEvent ⟨0, 0, 0, "security", "compliant", "m", "auditor"⟩ 1 (0 + 1)]).length : ℤ) →
      max ((100000 : ℤ) / 10) 100
        ≤ ((([] : List AuditEvent)
          ++ [stampEvent ⟨0, 0, 0, "security", "compliant", "m", "auditor"⟩ 1 (0 + 1)]).length : ℤ)) →
      ∃ a', LogEvent ⟨[], 100000, 0⟩ ⟨0, 0, 0, "security", "compliant", "m", "auditor"⟩ 1
          = some a' ∧
        a'.eventCounter = 0 + 1 ∧
        a'.events
          = (if (100000 : ℤ)
                < ((([] : List AuditEvent)
                  ++ [stampEvent ⟨0, 0, 0, "security", "compliant", "m", "auditor"⟩ 1 (0 + 1)]).length : ℤ)
             then (([] : List AuditEvent)
                  ++ [stampEvent ⟨0, 0, 0, "security", "compliant", "m", "auditor"⟩ 1 (0 + 1)]).drop
                (max ((100000 : ℤ) / 10) 100).toNat
             else ([] : List AuditEvent)
                  ++ [stampEvent ⟨0, 0, 0, "security", "compliant", "m", "auditor"⟩ 1 (0 + 1)]) ∧
        (∀ e ∈ a'.events, e.idCounter ≤ a'.eventCounter)) ∧
    ((100000 : ℤ)
        < ((([] : List AuditEvent)
          ++ [stampEvent ⟨0, 0, 0, "security", "compliant", "m", "auditor"⟩ 1 (0 + 1)]).length : ℤ) →
      ((([] : List AuditEvent)
          ++ [stampEvent ⟨0, 0, 0, "security", "compliant", "m", "auditor"⟩ 1 (0 + 1)]).length : ℤ)
        < max ((100000 : ℤ) / 10) 100 →
      LogEvent ⟨[], 100000, 0⟩ ⟨0, 0, 0, "security", "compliant", "m", "auditor"⟩ 1 = none) :=
  C7_ledger_append_amended ⟨[], 100000, 0⟩ ⟨0, 0, 0, "security", "compliant", "m", "auditor"⟩ 1
    (by simp)

/-!
Hypervisor SBOH metrics (`internal/hypervisor/healing.go`).  The P95
computation copies the latency buffer, bubble-sorts it ascending and
indexes it at `int(0.95 × n)` clamped to `n − 1`.  The nested loops
`for i; for j < n-1-i` of the source are modelled as `bubbleIter`: one
adjacent-swap pass (`bubblePass`) over the prefix of length `n − i` per
outer iteration.
-/

/-- One adjacent-compare-and-swap sweep (`healing.go` lines 143–147,
the inner `j` loop) with the current left operand carried along:
`if samples[j] > samples[j+1] { swap }`. -/
def bubblePassAux : ℚ → List ℚ → List ℚ
  | a, [] => [a]
  | a, b :: t => if b < a then b :: bubblePassAux a t else a :: bubblePassAux b t

/-- One full inner-loop pass over a list. -/
def bubblePass : List ℚ → List ℚ
  | [] => []
  | a :: t => bubblePassAux a t

/-- The outer `i` loop (`healing.go` lines 142–148): iteration `i` runs
the inner pass over the prefix of length `n − i`; `bubbleIter k` performs
the passes with prefix lengths `k, k−1, …, 1`. -/
def bubbleIter : ℕ → List ℚ → List ℚ
  | 0, l => l
  | k + 1, l => bubbleIter k (bubblePass (l.take (k + 1)) ++ l.drop (k + 1))

/-- The bubble sort of `calculateP95Latency` (`healing.go` lines
142–148). -/
def bubbleSort (l : List ℚ) : List ℚ := bubbleIter l.length l

/-- Mirrors `calculateP95Latency` (`healing.go` lines 133–156): empty
buffer yields 0; otherwise sort a copy ascending and return the element
at index `int(float64(n) * 0.95)`, clamped to `n − 1`.  `int()` on a
nonnegative value truncates, i.e. takes the floor. -/
def calculateP95Latency (latencySamples : List ℚ) : ℚ :=
  if latencySamples.length = 0 then 0
  else
    let samples := bubbleSort latencySamples
    let p95Index := (⌊(samples.length : ℚ) * (95 / 100)⌋).toNat
    let p95Index2 := if samples.length ≤ p95Index then samples.length - 1 else p95Index
    samples.getD p95Index2 0

lemma bubblePassAux_perm (t : List ℚ) : ∀ a, List.Perm (bubblePassAux a t) (a :: t) := by
  induction t with
  | nil => intro a; rfl
  | cons b t ih =>
      intro a
      unfold bubblePassAux
      split
      · exact ((ih a).cons b).trans (List.Perm.swap a b t)
      · exact (ih b).cons a

lemma bubblePass_perm (l : List ℚ) : List.Perm (bubblePass l) l := by
  cases l with
  | nil => rfl
  | cons a t => exact bubblePassAux_perm t a

/-- The pass deposits a maximum of its input at the last position. -/
lemma bubblePassAux_decomp (t : List ℚ) : ∀ a, ∃ l' m,
    bubblePassAux a t = l' ++ [m] ∧ (∀ x ∈ a :: t, x ≤ m) := by
  induction t with
  | nil =>
      intro a
      exact ⟨[], a, rfl, by simp⟩
  | cons b t ih =>
      intro a
      unfold bubblePassAux
      split
      · obtain ⟨l', m, heq, hb⟩ := ih a
        refine ⟨b :: l', m, by rw [heq]; rfl, ?_⟩
        intro x hx
        rcases List.mem_cons.mp hx with rfl | hx
        · exact hb x (by simp)
        · rcases List.mem_cons.mp hx with rfl | hx
          · have hba : x < a := by assumption
            exact le_of_lt (lt_of_lt_of_le hba (hb a (by simp)))
          · exact hb x (by simp [hx])
      · obtain ⟨l', m, heq, hb⟩ := ih b
        refine ⟨a :: l', m, by rw [heq]; rfl, ?_⟩
        intro x hx
        rcases List.mem_cons.mp hx with rfl | hx
        · have hab : ¬ b < x := by assumption
          exact le_trans (not_lt.mp hab) (hb b (by simp))
        · exact hb x hx

lemma bubblePass_decomp (l : List ℚ) (h : l ≠ []) : ∃ l' m,
    bubblePass l = l' ++ [m] ∧ (∀ x ∈ l, x ≤ m) := by
  cases l with
  | nil => exact absurd rfl h
  | cons a t => exact bubblePassAux_decomp t a

lemma bubblePass_length (l : List ℚ) : (bubblePass l).length = l.length :=
  (bubblePass_perm l).length_eq

/-- Invariant of the outer loop: if the suffix beyond position `k` is
already sorted and dominates the prefix, running the remaining `k`
passes yields a sorted permutation of the input. -/
lemma bubbleIter_sorted : ∀ (k : ℕ) (l : List ℚ), k ≤ l.length →
    (l.drop k).Sorted (· ≤ ·) →
    (∀ x ∈ l.take k, ∀ y ∈ l.drop k, x ≤ y) →
    List.Perm (bubbleIter k l) l ∧ (bubbleIter k l).Sorted (· ≤ ·) := by
  intro k
  induction k with
  | zero =>
      intro l hk hs hpt
      exact ⟨List.Perm.refl l, by simpa using hs⟩
  | succ k ih =>
      intro l hk hs hpt
      have htklen : (l.take (k + 1)).length = k + 1 := by
        rw [List.length_take]
        omega
      have htkne : l.take (k + 1) ≠ [] := by
        intro hcon
        rw [hcon] at htklen
        simp at htklen
      obtain ⟨l2, m, hdecomp, hmax⟩ := bubblePass_decomp (l.take (k + 1)) htkne
      have hAperm : List.Perm (bubblePass (l.take (k + 1))) (l.take (k + 1)) :=
        bubblePass_perm _
      have hAlen : (bubblePass (l.take (k + 1))).length = k + 1 := by
        rw [bubblePass_length, htklen]
      have hl2len : l2.length = k := by
        have := hAlen
        rw [hdecomp, List.length_append] at this
        simpa using this
      have hmmem : m ∈ l.take (k + 1) := by
        refine hAperm.mem_iff.mp ?_
        rw [hdecomp]
        simp
      set B := l.drop (k + 1) with hB
      set l' := bubblePass (l.take (k + 1)) ++ B with hl'
      have hl'len : l'.length = l.length := by
        rw [hl', List.length_append, hAlen, hB, List.length_drop]
        omega
      have hl'perm : List.Perm l' l := by
        have h1 : List.Perm (bubblePass (l.take (k + 1)) ++ B) (l.take (k + 1) ++ B) :=
          hAperm.append_right B
        rw [hl']
        exact h1.trans (by rw [hB, List.take_append_drop])
      have htake' : l'.take k = l2 := by
        rw [hl', List.take_append_of_le_length (by omega), hdecomp,
          List.take_append_of_le_length (by omega), List.take_of_length_le (by omega)]
      have hdrop' : l'.drop k = m :: B := by
        rw [hl', List.drop_append_of_le_length (by omega), hdecomp,
          List.drop_append_of_le_length (by omega), List.drop_of_length_le (by omega)]
        rfl
      have hmB : ∀ y ∈ B, m ≤ y := fun y hy => hpt m hmmem y hy
      have hsorted' : (l'.drop k).Sorted (· ≤ ·) := by
        rw [hdrop', List.sorted_cons]
        exact ⟨hmB, hs⟩
      have hpt' : ∀ x ∈ l'.take k, ∀ y ∈ l'.drop k, x ≤ y := by
        intro x hx y hy
        rw [htake'] at hx
        have hxA : x ∈ l.take (k + 1) := by
          refine hAperm.mem_iff.mp ?_
          rw [hdecomp]
          exact List.mem_append_left _ hx
        rw [hdrop'] at hy
        rcases List.mem_cons.mp hy with rfl | hy
        · exact hmax x hxA
        · exact hpt x hxA y hy
      have hiter : bubbleIter (k + 1) l = bubbleIter k l' := by
        rw [bubbleIter, hl', hB]
      obtain ⟨hperm, hsorted⟩ := ih l' (by omega) hsorted' hpt'
      exact ⟨by rw [hiter]; exact hperm.trans hl'perm, by rw [hiter]; exact hsorted⟩

/-- The source's bubble sort produces the ascending sort of its input. -/
lemma bubbleSort_eq_insertionSort (l : List ℚ) :
    bubbleSort l = List.insertionSort (· ≤ ·) l := by
  obtain ⟨hperm, hsorted⟩ := bubbleIter_sorted l.length l (le_refl _)
    (by simp) (by simp)
  exact List.eq_of_perm_of_sorted
    (hperm.trans (List.perm_insertionSort (· ≤ ·) l).symm)
    hsorted (List.sorted_insertionSort (· ≤ ·) l)

/-- For a nonempty buffer, the reported P95 is the element of the
ascending sort at index `floor(0.95 n)` clamped to `n − 1`. -/
lemma calculateP95Latency_spec (l : List ℚ) (h : l ≠ []) :
    calculateP95Latency l
      = (List.insertionSort (· ≤ ·) l).getD
          (min (⌊(l.length : ℚ) * (95 / 100)⌋).toNat (l.length - 1)) 0 := by
  have hn : 0 < l.length := List.length_pos.mpr h
  have hlen2 : (List.insertionSort (· ≤ ·) l).length = l.length :=
    List.length_insertionSort (· ≤ ·) l
  have hfl_nonneg : 0 ≤ ⌊(l.length : ℚ) * (95 / 100)⌋ :=
    Int.floor_nonneg.mpr (by positivity)
  have hfl_lt : ⌊(l.length : ℚ) * (95 / 100)⌋ < (l.length : ℤ) := by
    rw [Int.floor_lt]
    have hq : (1 : ℚ) ≤ (l.length : ℚ) := by exact_mod_cast hn
    push_cast
    nlinarith
  have hidx : (⌊(l.length : ℚ) * (95 / 100)⌋).toNat ≤ l.length - 1 := by omega
  simp only [calculateP95Latency, bubbleSort_eq_insertionSort, hlen2]
  rw [if_neg (by omega), if_neg (by omega), min_eq_left hidx]

set_option maxRecDepth 40000 in
/-- C6: the reported P95 equals the element at index `floor(0.95 n)`,
clamped to `n − 1`, of the ascending-sorted copy of the buffer; in
particular 10 samples `[10, 20, …, 100]` give P95 = 100 and 100 samples
`1..100` give P95 = 96. -/
theorem C6_p95_latency :
    (∀ (l : List ℚ), l ≠ [] →
      calculateP95Latency l
        = (List.insertionSort (· ≤ ·) l).getD
            (min (⌊(l.length : ℚ) * (95 / 100)⌋).toNat (l.length - 1)) 0) ∧
    calculateP95Latency [10, 20, 30, 40, 50, 60, 70, 80, 90, 100] = 100 ∧
    calculateP95Latency [1, 2, 3, 4, 5, 6, 7, 8, 9, 10, 11, 12, 13, 14, 15, 16, 17, 18, 19, 20, 21, 22, 23, 24, 25, 26, 27, 28, 29, 30, 31, 32, 33, 34, 35, 36, 37, 38, 39, 40, 41, 42, 43, 44, 45, 46, 47, 48, 49, 50, 51, 52, 53, 54, 55, 56, 57, 58, 59, 60, 61, 62, 63, 64, 65, 66, 67, 68, 69, 70, 71, 72, 73, 74, 75, 76, 77, 78, 79, 80, 81, 82, 83, 84, 85, 86, 87, 88, 89, 90, 91, 92, 93, 94, 95, 96, 97, 98, 99, 100] = 96 := by
  refine ⟨calculateP95Latency_spec, ?_, ?_⟩
  · have hbs : bubbleSort [10, 20, 30, 40, 50, 60, 70, 80, 90, 100]
        = [10, 20, 30, 40, 50, 60, 70, 80, 90, 100] := by decide
    have hfl : (⌊((10 : ℕ) : ℚ) * (95 / 100)⌋).toNat = 9 := by
      have h : ⌊((10 : ℕ) : ℚ) * (95 / 100)⌋ = 9 := by norm_num
      rw [h]
      rfl
    simp only [calculateP95Latency, hbs, List.length_cons, List.length_nil]
    norm_num [hfl]
    decide
  · have hbs : bubbleSort [1, 2, 3, 4, 5, 6, 7, 8, 9, 10, 11, 12, 13, 14, 15, 16, 17, 18, 19, 20, 21, 22, 23, 24, 25, 26, 27, 28, 29, 30, 31, 32, 33, 34, 35, 36, 37, 38, 39, 40, 41, 42, 43, 44, 45, 46, 47, 48, 49, 50, 51, 52, 53, 54, 55, 56, 57, 58, 59, 60, 61, 62, 63, 64, 65, 66, 67, 68, 69, 70, 71, 72, 73, 74, 75, 76, 77, 78, 79, 80, 81, 82, 83, 84, 85, 86, 87, 88, 89, 90, 91, 92, 93, 94, 95, 96, 97, 98, 99, 100] = [1, 2, 3, 4, 5, 6, 7, 8, 9, 10, 11, 12, 13, 14, 15, 16, 17, 18, 19, 20, 21, 22, 23, 24, 25, 26, 27, 28, 29, 30, 31, 32, 33, 34, 35, 36, 37, 38, 39, 40, 41, 42, 43, 44, 45, 46, 47, 48, 49, 50, 51, 52, 53, 54, 55, 56, 57, 58, 59, 60, 61, 62, 63, 64, 65, 66, 67, 68, 69, 70, 71, 72, 73, 74, 75, 76, 77, 78, 79, 80, 81, 82, 83, 84, 85, 86, 87, 88, 89, 90, 91, 92, 93, 94, 95, 96, 97, 98, 99, 100] := by decide
    have hfl : (⌊((100 : ℕ) : ℚ) * (95 / 100)⌋).toNat = 95 := by
      have h : ⌊((100 : ℕ) : ℚ) * (95 / 100)⌋ = 95 := by norm_num
      rw [h]
      rfl
    simp only [calculateP95Latency, hbs, List.length_cons, List.length_nil]
    norm_num [hfl]
    decide

theorem C6_witness :
    calculateP95Latency [5]
      = (List.insertionSort (· ≤ ·) [5]).getD
          (min (⌊(([5] : List ℚ).length : ℚ) * (95 / 100)⌋).toNat
            (([5] : List ℚ).length - 1)) 0 :=
  C6_p95_latency.1 [5] (by decide)
